import Mathlib

/-!
# Verification development for the patient-journey summarizer

Shallow embedding of the repository's core: the backend pipeline
(TokenManager, DocumentLinkScanner, DocumentFetcher, Summarizer,
PipelineOrchestrator) and the React frontend client (`App.tsx`,
`MentalStateCard.tsx`).

The backend Python source (`backend/main.py`) is not part of the file set;
only its README, the spec, and the frontend caller are.  Backend definitions
below are therefore modelled from the spec (each such definition's doc
comment starts with `Modelled from the spec:`).  Frontend definitions are
translated directly from the TypeScript sources.

Strings are handled through their character lists; case-insensitive
matching is embedded as `Char.toLower` applied pointwise, mirroring
`str.lower()` / `String.prototype.toLowerCase` on the ASCII data the
heuristics target.  JavaScript / Python numbers are embedded as `ℚ`
(the clamping and rounding arithmetic involved is exact on floats).
-/

/-- Lower-cased character list of a string (embeds case-insensitive
comparison). -/
def lowerChars (s : String) : List Char := s.toList.map Char.toLower

/-- Whether the character list `pat` occurs contiguously inside `s`. -/
def containsChars (pat : List Char) : List Char → Bool
  | [] => pat.isEmpty
  | c :: rest => pat.isPrefixOf (c :: rest) || containsChars pat rest

namespace DocumentLinkScanner

/-- Arbitrary JSON value: the clinical platform's response shape.  -/
inductive Json where
  | str (s : String)
  | num (n : Int)
  | bool (b : Bool)
  | null
  | arr (elems : List Json)
  | obj (fields : List (String × Json))

/-- Confidence hints of `CandidateUrl`, ordered
`explicit_key > pdf_suffix > keyword_match`. -/
inductive Confidence where
  | explicit_key
  | pdf_suffix
  | keyword_match
deriving DecidableEq

/-- Numeric rank realising the confidence ordering. -/
def Confidence.rank : Confidence → Nat
  | .explicit_key => 2
  | .pdf_suffix => 1
  | .keyword_match => 0

/-- The higher-confidence of two hints (first wins on ties). -/
def Confidence.pick (a b : Confidence) : Confidence :=
  if a.rank < b.rank then b else a

/-- A discovered candidate document URL. -/
structure CandidateUrl where
  url : String
  confidence_hint : Confidence
deriving DecidableEq

/-- Modelled from the spec: the fixed set of URL-bearing key names matched
case-insensitively (`url`, `file_url`, `prescription_url`,
`download_url`). -/
def urlKeyNames : List (List Char) :=
  [String.toList "url", String.toList "file_url",
   String.toList "prescription_url", String.toList "download_url"]

/-- Case-insensitive membership of a mapping key in the known URL-key set. -/
def isUrlKey (k : String) : Bool := urlKeyNames.contains (lowerChars k)

/-- Case-insensitive `.pdf` suffix test on a string value. -/
def endsWithPdf (s : String) : Bool :=
  (String.toList ".pdf").isSuffixOf (lowerChars s)

/-- Case-insensitive test for the keyword substrings `rx`, `prescription`,
`consult`. -/
def hasKeyword (s : String) : Bool :=
  containsChars (String.toList "rx") (lowerChars s) ||
  containsChars (String.toList "prescription") (lowerChars s) ||
  containsChars (String.toList "consult") (lowerChars s)

/-- Modelled from the spec: the recursion-depth safety cap of the scanner
("cap recursion depth, e.g. 50"). -/
def depthCap : Nat := 50

/-- Modelled from the spec: the depth-first emission pass of
`DocumentLinkScanner.scan` (`extract_prescription_urls` in the backend).
At each mapping, a known URL-bearing key with a string value emits
`explicit_key`; independently every string value anywhere emits
`pdf_suffix` when it ends in `.pdf`, else `keyword_match` when it contains
a keyword.  The first argument is the remaining recursion depth. -/
def scanRaw : Nat → Json → List (String × Confidence)
  | 0, _ => []
  | _ + 1, .str s =>
      if endsWithPdf s then [(s, .pdf_suffix)]
      else if hasKeyword s then [(s, .keyword_match)]
      else []
  | _ + 1, .num _ => []
  | _ + 1, .bool _ => []
  | _ + 1, .null => []
  | fuel + 1, .arr xs => xs.flatMap (scanRaw fuel)
  | fuel + 1, .obj kvs => kvs.flatMap (fun kv =>
      (match kv.2, isUrlKey kv.1 with
        | .str s, true => [(s, .explicit_key)]
        | _, _ => []) ++ scanRaw fuel kv.2)

/-- One step of deduplication: a raw emission is merged into the
accumulated candidate list — an already-seen URL keeps its position and
takes the higher confidence, a fresh URL is appended. -/
def dedupStep (acc : List CandidateUrl) (p : String × Confidence) :
    List CandidateUrl :=
  if acc.any (fun c => c.url = p.1) then
    acc.map (fun c =>
      if c.url = p.1 then
        { c with confidence_hint := c.confidence_hint.pick p.2 }
      else c)
  else acc ++ [{ url := p.1, confidence_hint := p.2 }]

/-- Deduplication by exact URL string, first-seen order, higher confidence
kept. -/
def dedup (l : List (String × Confidence)) : List CandidateUrl :=
  l.foldl dedupStep []

/-- Modelled from the spec: `DocumentLinkScanner.scan` — raw depth-first
emission under the depth cap, then deduplication. -/
def scan (j : Json) : List CandidateUrl := dedup (scanRaw depthCap j)

/-- The string values of a JSON document reachable within the given
nesting depth (the same traversal discipline as `scanRaw`). -/
def strVals : Nat → Json → List String
  | 0, _ => []
  | _ + 1, .str s => [s]
  | _ + 1, .num _ => []
  | _ + 1, .bool _ => []
  | _ + 1, .null => []
  | fuel + 1, .arr xs => xs.flatMap (strVals fuel)
  | fuel + 1, .obj kvs => kvs.flatMap (fun kv => strVals fuel kv.2)

/-- The URLs of a candidate list. -/
def urlsOf (l : List CandidateUrl) : List String := l.map (fun c => c.url)

end DocumentLinkScanner

namespace Summarizer

/-- Triage mental-state color (`"Green" | "Amber" | "Red"` in
`MentalStateCard.tsx`). -/
inductive Color where
  | Green
  | Amber
  | Red
deriving DecidableEq

/-- Mental-state record of the JourneySummary (`MentalState` in
`MentalStateCard.tsx`; confidence is a scalar in `[0,1]` after
ingestion). -/
structure MentalState where
  color : Color
  explanation : String
  confidence : ℚ
deriving DecidableEq

/-- One timeline entry (`{date: string | null; title; details}` in
`App.tsx`). -/
structure TimelineItem where
  date : Option String
  title : String
  details : String
deriving DecidableEq

/-- The terminal summary artifact of §3: structured fields plus the
optional raw model output, present only when structured parsing failed
(the frontend receives it as `_raw`). -/
structure JourneySummary where
  summary : String
  timeline : List TimelineItem
  key_findings : List String
  medications_mentioned : List String
  followups_or_actions : List String
  mental_state : MentalState
  raw_model_output : Option String
deriving DecidableEq

/-- The structured payload a successful strict or lenient decode of the
LLM response yields (the schema the prompt requires). -/
structure ParsedSummary where
  summary : String
  timeline : List TimelineItem
  key_findings : List String
  medications_mentioned : List String
  followups_or_actions : List String
  color : Color
  explanation : String
  confidence : ℚ
deriving DecidableEq

/-- Modelled from the spec: confidence "is clamped into [0,1] on ingestion
to tolerate out-of-range model output". -/
def clamp01 (q : ℚ) : ℚ := max 0 (min 1 q)

/-- Modelled from the spec: ingestion of a successfully decoded payload —
structured fields carried over, confidence clamped, no raw output. -/
def ingestParsed (p : ParsedSummary) : JourneySummary :=
  { summary := p.summary
    timeline := p.timeline
    key_findings := p.key_findings
    medications_mentioned := p.medications_mentioned
    followups_or_actions := p.followups_or_actions
    mental_state :=
      { color := p.color
        explanation := p.explanation
        confidence := clamp01 p.confidence }
    raw_model_output := none }

/-- Modelled from the spec: the parse-failure fallback — every structured
field empty/default, color `Amber` with confidence 0, and the full
unparsed model text in `raw_model_output`. -/
def fallbackSummary (text : String) : JourneySummary :=
  { summary := ""
    timeline := []
    key_findings := []
    medications_mentioned := []
    followups_or_actions := []
    mental_state := { color := .Amber, explanation := "", confidence := 0 }
    raw_model_output := some text }

/-- Modelled from the spec: the three-tier parsing policy of
`Summarizer.summarize` — strict decode, then lenient recovery, then the
fallback.  `strict` and `lenient` are the two decoders; the function is
total, so a malformed model response is never a thrown error. -/
def summarize (strict lenient : String → Option ParsedSummary)
    (text : String) : JourneySummary :=
  match strict text with
  | some p => ingestParsed p
  | none =>
    match lenient text with
    | some p => ingestParsed p
    | none => fallbackSummary text

end Summarizer

namespace Pipeline

open DocumentLinkScanner Summarizer

/-- Per-document fetch/extract status (§3 `FetchedDocument.status`). -/
inductive FetchStatus where
  | ok
  | download_failed
  | extract_failed
deriving DecidableEq

/-- One fetched document; `extracted_text` is present exactly on `ok`. -/
structure FetchedDocument where
  source_url : String
  extracted_text : Option String
  status : FetchStatus
deriving DecidableEq

/-- Modelled from the spec: concatenation of the successfully extracted
texts, order preserved, each prefixed by its source identifier. -/
def aggregateTexts (docs : List FetchedDocument) : String :=
  String.join ((docs.filterMap (fun d =>
    d.extracted_text.map (fun t => (d.source_url, t)))).map
      (fun p => "[" ++ p.1 ++ "]\n" ++ p.2 ++ "\n"))

/-- The usable (successfully extracted) texts of a fetch result. -/
def usableTexts (docs : List FetchedDocument) : List String :=
  docs.filterMap (fun d => d.extracted_text)

/-- Body of a successful `/api/patient-summary` response: the
JourneySummary plus the bookkeeping counts and optional debug payload. -/
structure SummaryResponse where
  patient_id : String
  journey : JourneySummary
  ingested_docs : Nat
  source_count : Nat
  debug : Option String
deriving DecidableEq

/-- Outcome of `PipelineOrchestrator.summarize`: either the distinct
no-documents / no-usable-documents results or a summary. -/
inductive SummarizeOutcome where
  | noDocumentsFound (patient_id : String)
  | noUsableDocuments (patient_id : String)
  | summarized (resp : SummaryResponse)
deriving DecidableEq

/-- Whether an outcome is one of the two "no documents" short-circuits. -/
def SummarizeOutcome.isNoDocs : SummarizeOutcome → Bool
  | .noDocumentsFound _ => true
  | .noUsableDocuments _ => true
  | .summarized _ => false

/-- Body of a successful `/api/prescription-urls` response
(`UrlsResponse` in `App.tsx`). -/
structure UrlsResponse where
  patient_id : String
  count : Nat
  urls : List String
deriving DecidableEq

/-- Modelled from the spec: `discover(patient_id)` returns the ordered URL
list and its count (`fetchPlatform` stands for the authenticated
clinical-platform appointment/records call). -/
def discover (fetchPlatform : String → Json) (pid : String) : UrlsResponse :=
  let urls := urlsOf (scan (fetchPlatform pid))
  { patient_id := pid, count := urls.length, urls := urls }

/-- Modelled from the spec: `PipelineOrchestrator.summarize` — discover
internally, short-circuit on zero URLs or zero usable texts without
calling the LLM, otherwise fetch, aggregate, summarize once.  The second
component counts LLM invocations. -/
def orchestrate (fetchPlatform : String → Json)
    (fetchAll : List String → List FetchedDocument)
    (strict lenient : String → Option ParsedSummary)
    (llm : String → String) (pid : String) : SummarizeOutcome × Nat :=
  let d := discover fetchPlatform pid
  if d.urls.isEmpty then (.noDocumentsFound pid, 0)
  else
    let docs := fetchAll d.urls
    if (usableTexts docs).isEmpty then (.noUsableDocuments pid, 0)
    else
      let modelText := llm (aggregateTexts docs)
      (.summarized
        { patient_id := pid
          journey := Summarizer.summarize strict lenient modelText
          ingested_docs := (usableTexts docs).length
          source_count := d.urls.length
          debug := none }, 1)

/-- Modelled from the spec: the two HTTP operations the core exposes
(§6), as (path, method) pairs. -/
def endpoints : List (String × String) :=
  [("/api/prescription-urls", "POST"), ("/api/patient-summary", "POST")]

end Pipeline

namespace TokenManager

/-- Modelled from the spec: the single-flight token state.  Concurrent
callers of `get_valid_token` are abstracted by how many sit at each stage
of the protocol: not yet past the cache check (`nStart`), awaiting the
in-flight exchange (`nWaiting`), performing the login network call
(`nLogin`), returned (`nDone`).  `hasCred` is the process-wide Credential
slot, `inflight` the single-flight guard, `loginCalls` the total number of
login network calls issued. -/
structure TMState where
  hasCred : Bool
  inflight : Bool
  loginCalls : Nat
  nStart : Nat
  nWaiting : Nat
  nLogin : Nat
  nDone : Nat
deriving DecidableEq

/-- Initial state for `n` concurrent callers before any Credential
exists. -/
def TMState.init (n : Nat) : TMState :=
  { hasCred := false, inflight := false, loginCalls := 0,
    nStart := n, nWaiting := 0, nLogin := 0, nDone := 0 }

/-- Modelled from the spec: one interleaving step of the single-flight
protocol (mutex-guarded, so each step is atomic).  A caller either hits
the cache, starts the unique login call, joins the waiters, finishes the
login (filling the Credential slot), or wakes after the fill. -/
inductive TMStep : TMState → TMState → Prop where
  | cacheHit (σ σ' : TMState) :
      1 ≤ σ.nStart → σ.hasCred = true →
      σ' = { σ with nStart := σ.nStart - 1, nDone := σ.nDone + 1 } →
      TMStep σ σ'
  | beginLogin (σ σ' : TMState) :
      1 ≤ σ.nStart → σ.hasCred = false → σ.inflight = false →
      σ' = { σ with nStart := σ.nStart - 1, nLogin := σ.nLogin + 1,
                    inflight := true, loginCalls := σ.loginCalls + 1 } →
      TMStep σ σ'
  | joinWait (σ σ' : TMState) :
      1 ≤ σ.nStart → σ.hasCred = false → σ.inflight = true →
      σ' = { σ with nStart := σ.nStart - 1, nWaiting := σ.nWaiting + 1 } →
      TMStep σ σ'
  | finishLogin (σ σ' : TMState) :
      1 ≤ σ.nLogin →
      σ' = { σ with nLogin := σ.nLogin - 1, nDone := σ.nDone + 1,
                    hasCred := true, inflight := false } →
      TMStep σ σ'
  | wake (σ σ' : TMState) :
      1 ≤ σ.nWaiting → σ.hasCred = true →
      σ' = { σ with nWaiting := σ.nWaiting - 1, nDone := σ.nDone + 1 } →
      TMStep σ σ'

/-- Reachability under interleaved protocol steps. -/
def TMReach : TMState → TMState → Prop := Relation.ReflTransGen TMStep

/-- The inductive invariant of the single-flight protocol for `n`
callers. -/
def TMInv (n : Nat) (σ : TMState) : Prop :=
  σ.nStart + σ.nWaiting + σ.nLogin + σ.nDone = n ∧
  σ.nLogin = (if σ.inflight then 1 else 0) ∧
  σ.loginCalls =
    (if σ.inflight then 1 else 0) + (if σ.hasCred then 1 else 0) ∧
  (σ.inflight = true → σ.hasCred = false) ∧
  (σ.hasCred = false → σ.nDone = 0)

end TokenManager

namespace Frontend

open Summarizer Pipeline

/-- An HTTP request as issued by the frontend (`fetch` /
`fetchWithTimeout` call sites in `App.tsx`): the path under `API_BASE`,
the method, the content type, the JSON body — which at both call sites is
exactly the object with the single field `patient_id` — and the bound on
the request's lifetime, `none` when the call carries no timeout. -/
structure HttpRequest where
  path : String
  method : String
  contentType : String
  patient_id : String
  timeoutMs : Option Nat
deriving DecidableEq

/-- A bare `fetch(...)` request as built in `discoverUrls` /
`summarize`: POST, JSON content type, body `{patient_id}`, no abort
signal and hence no timeout bound. -/
def plainPost (path pid : String) : HttpRequest :=
  { path := path, method := "POST", contentType := "application/json",
    patient_id := pid, timeoutMs := none }

/-- Default `timeoutMs` of the `fetchWithTimeout` helper in `App.tsx`. -/
def fetchWithTimeoutDefaultMs : Nat := 20000

/-- The `fetchWithTimeout` helper of `App.tsx`: the same request with an
`AbortController` bound of `timeoutMs` milliseconds attached. -/
def fetchWithTimeout (req : HttpRequest) (timeoutMs : Nat) : HttpRequest :=
  { req with timeoutMs := some timeoutMs }

/-- The guard `!patientId.trim()` of `App.tsx`: the trimmed string is
empty exactly when every character is whitespace. -/
def trimIsEmpty (s : String) : Bool := s.toList.all Char.isWhitespace

/-- The React state of the `App` component: `patientId`, `urls`,
`result`, `error`, `toastMsg` (loader state lives in `useProgress` and is
tracked as an effect below). -/
structure AppState where
  patientId : String
  urls : List String
  result : Option SummaryResponse
  error : Option String
  toastMsg : String
deriving DecidableEq

/-- The observable outcome of the synchronous prefix of an `App` handler:
the successor state, whether the progress loader was started, and the
HTTP requests issued. -/
structure HandlerStep where
  state : AppState
  loaderStarted : Bool
  requests : List HttpRequest
deriving DecidableEq

/-- `discoverUrls` in `App.tsx`, up to its `await`: an empty trimmed
`patientId` only shows the toast and returns; otherwise the handler
clears `error`, empties `urls`, starts the loader and issues the POST to
`/api/prescription-urls`. -/
def discoverUrls (s : AppState) : HandlerStep :=
  if trimIsEmpty s.patientId then
    { state :=
        { s with toastMsg := "⚠️ Please enter a Patient OID before proceeding." }
      loaderStarted := false
      requests := [] }
  else
    { state := { s with error := none, urls := [] }
      loaderStarted := true
      requests := [plainPost "/api/prescription-urls" s.patientId] }

/-- `summarize` in `App.tsx`, up to its `await`: an empty trimmed
`patientId` only shows the toast and returns; otherwise the handler
clears `error`, clears `result`, starts the loader and issues the POST to
`/api/patient-summary`. -/
def summarize (s : AppState) : HandlerStep :=
  if trimIsEmpty s.patientId then
    { state :=
        { s with toastMsg := "⚠️ Please enter a Patient OID before summarizing." }
      loaderStarted := false
      requests := [] }
  else
    { state := { s with error := none, result := none }
      loaderStarted := true
      requests := [plainPost "/api/patient-summary" s.patientId] }

/-- The confidence percentage `MentalStateCard` computes:
`Math.max(0, Math.min(100, Math.round(confidence * 100)))`. -/
def uiConfidencePct (confidence : ℚ) : ℤ :=
  max 0 (min 100 (round (confidence * 100)))

/-- The raw-output section of `App.tsx`: `result._raw && <pre>...` — the
raw text is rendered verbatim inside the `details` block exactly when the
field is present and non-empty (an empty string is falsy in the guard). -/
def rawOutputSection (raw : Option String) : Option String :=
  match raw with
  | some t => if t = "" then none else some t
  | none => none

/-- One tick of the `useProgress` interval: hold at or above 90,
otherwise advance by the random bump `r * 6 + 3` capped at 90
(`r` embeds the `Math.random()` draw in `[0,1)`). -/
def progressTick (r p : ℚ) : ℚ :=
  if 90 ≤ p then p else min 90 (p + (r * 6 + 3))

/-- The progress value `complete()` sets. -/
def completeProgress : ℚ := 100

/-- The progress update of `fail()`: `p < 95 ? 95 : p`. -/
def failProgress (p : ℚ) : ℚ := if p < 95 then 95 else p

end Frontend

section Theorems

open DocumentLinkScanner Summarizer Pipeline TokenManager Frontend

/-- `clamp01` lands in `[0,1]`. -/
lemma clamp01_mem (q : ℚ) : 0 ≤ clamp01 q ∧ clamp01 q ≤ 1 :=
  ⟨le_max_left 0 _, max_le (by norm_num) (min_le_left 1 q)⟩

/-- Every summary the three-tier parser produces carries a clamped
confidence. -/
lemma summarize_confidence_mem
    (strict lenient : String → Option ParsedSummary) (text : String) :
    0 ≤ (Summarizer.summarize strict lenient text).mental_state.confidence ∧
    (Summarizer.summarize strict lenient text).mental_state.confidence ≤ 1 := by
  unfold Summarizer.summarize
  cases strict text with
  | some p => exact clamp01_mem p.confidence
  | none =>
    cases lenient text with
    | some p => exact clamp01_mem p.confidence
    | none => exact ⟨le_refl 0, by norm_num [fallbackSummary]⟩

/-- C1: When both the strict decode and the lenient recovery of the LLM
response fail, `Summarizer.summarize` still returns a `JourneySummary`
(it is a total function, so it never throws) whose structured fields are
empty, whose mental state is `Amber` with confidence 0, and whose
`raw_model_output` carries the full (non-empty) unparsed model text;
conversely `raw_model_output` is populated only in this double-failure
case, and the consuming UI (`App.tsx`) renders the carried text verbatim
in its raw-output section. -/
theorem c1_parse_failure_fallback
    (strict lenient : String → Option ParsedSummary) (text : String)
    (hs : strict text = none) (hl : lenient text = none) (hne : text ≠ "") :
    (Summarizer.summarize strict lenient text).summary = "" ∧
    (Summarizer.summarize strict lenient text).timeline = [] ∧
    (Summarizer.summarize strict lenient text).key_findings = [] ∧
    (Summarizer.summarize strict lenient text).medications_mentioned = [] ∧
    (Summarizer.summarize strict lenient text).followups_or_actions = [] ∧
    (Summarizer.summarize strict lenient text).mental_state.color = .Amber ∧
    (Summarizer.summarize strict lenient text).mental_state.confidence = 0 ∧
    (Summarizer.summarize strict lenient text).raw_model_output = some text ∧
    rawOutputSection
      (Summarizer.summarize strict lenient text).raw_model_output =
      some text ∧
    (∀ (strict' lenient' : String → Option ParsedSummary) (t : String),
       (Summarizer.summarize strict' lenient' t).raw_model_output.isSome →
       strict' t = none ∧ lenient' t = none) := by
  have hfall : Summarizer.summarize strict lenient text = fallbackSummary text := by
    simp [Summarizer.summarize, hs, hl]
  rw [hfall]
  refine ⟨rfl, rfl, rfl, rfl, rfl, rfl, rfl, rfl,
    by simp [fallbackSummary, rawOutputSection, hne], ?_⟩
  intro strict' lenient' t hsome
  cases hst : strict' t with
  | some p => simp [Summarizer.summarize, hst, ingestParsed] at hsome
  | none =>
    cases hlt : lenient' t with
    | some p => simp [Summarizer.summarize, hst, hlt, ingestParsed] at hsome
    | none => exact ⟨rfl, rfl⟩

/-- Witness for C1 at concrete decoders that always fail and the model
text `"I am not JSON"`. -/
theorem c1_parse_failure_fallback_witness :
    (Summarizer.summarize (fun _ => none) (fun _ => none)
        "I am not JSON").mental_state.color = .Amber ∧
    (Summarizer.summarize (fun _ => none) (fun _ => none)
        "I am not JSON").raw_model_output = some "I am not JSON" := by
  have h := c1_parse_failure_fallback (fun _ => none) (fun _ => none)
    "I am not JSON" rfl rfl (by decide)
  exact ⟨h.2.2.2.2.2.1, h.2.2.2.2.2.2.2.1⟩

/-- C7: confidence is clamped into `[0,1]` on ingestion, and for every
real-valued confidence the percentage `MentalStateCard` computes
(`Math.max(0, Math.min(100, Math.round(confidence * 100)))`) lies in
`[0,100]`. -/
theorem c7_confidence_clamp_and_pct_bounds :
    (∀ p : ParsedSummary,
       (ingestParsed p).mental_state.confidence = clamp01 p.confidence ∧
       0 ≤ (ingestParsed p).mental_state.confidence ∧
       (ingestParsed p).mental_state.confidence ≤ 1) ∧
    (∀ c : ℚ, 0 ≤ uiConfidencePct c ∧ uiConfidencePct c ≤ 100) :=
  ⟨fun p => ⟨rfl, clamp01_mem p.confidence⟩,
   fun c => ⟨le_max_left 0 _, max_le (by norm_num) (min_le_left 100 _)⟩⟩

/-- C9: between `start()` and the next `complete()`/`fail()`, a
`useProgress` tick is non-decreasing, advances by at most 9, and never
leaves `[0,90]` upward; `complete()` sets exactly 100 and `fail()`
raises to at least 95. -/
theorem c9_useProgress_invariants :
    (∀ p r : ℚ, 0 ≤ r → r < 1 →
       p ≤ progressTick r p ∧
       progressTick r p ≤ p + 9 ∧
       (p ≤ 90 → progressTick r p ≤ 90)) ∧
    completeProgress = 100 ∧
    (∀ p : ℚ, 95 ≤ failProgress p) := by
  refine ⟨fun p r hr0 hr1 => ?_, rfl, fun p => ?_⟩
  · unfold progressTick
    by_cases h : (90 : ℚ) ≤ p
    · simp only [h, if_pos]
      exact ⟨le_refl p, by linarith, fun hp => hp⟩
    · simp only [h, if_neg, not_false_iff]
      push_neg at h
      refine ⟨le_min (le_of_lt h) (by linarith), ?_, fun _ => min_le_left _ _⟩
      calc min 90 (p + (r * 6 + 3)) ≤ p + (r * 6 + 3) := min_le_right _ _
        _ ≤ p + 9 := by linarith
  · unfold failProgress
    by_cases h : p < 95
    · simp [h]
    · simp [h]; linarith

/-- Witness for C9 at `p = 5`, `r = 1/2`. -/
theorem c9_useProgress_invariants_witness :
    5 ≤ progressTick (1/2) 5 ∧
    progressTick (1/2) 5 ≤ 5 + 9 ∧
    progressTick (1/2) 5 ≤ 90 := by
  have h := c9_useProgress_invariants.1 5 (1/2) (by norm_num) (by norm_num)
  exact ⟨h.1, h.2.1, h.2.2 (by norm_num)⟩

/-- C10: with an all-whitespace `patientId` (empty after trimming), both
`discoverUrls` and `summarize` in the `App` component return before
issuing any HTTP request, never start the loader, leave `urls`, `result`
and `error` unchanged, and only set the toast message. -/
theorem c10_empty_patient_id_is_pure (s : AppState)
    (h : trimIsEmpty s.patientId = true) :
    (Frontend.discoverUrls s).requests = [] ∧
    (Frontend.discoverUrls s).loaderStarted = false ∧
    (Frontend.discoverUrls s).state.urls = s.urls ∧
    (Frontend.discoverUrls s).state.result = s.result ∧
    (Frontend.discoverUrls s).state.error = s.error ∧
    (Frontend.discoverUrls s).state.patientId = s.patientId ∧
    (Frontend.discoverUrls s).state.toastMsg =
      "⚠️ Please enter a Patient OID before proceeding." ∧
    (Frontend.summarize s).requests = [] ∧
    (Frontend.summarize s).loaderStarted = false ∧
    (Frontend.summarize s).state.urls = s.urls ∧
    (Frontend.summarize s).state.result = s.result ∧
    (Frontend.summarize s).state.error = s.error ∧
    (Frontend.summarize s).state.patientId = s.patientId ∧
    (Frontend.summarize s).state.toastMsg =
      "⚠️ Please enter a Patient OID before summarizing." := by
  simp [Frontend.discoverUrls, Frontend.summarize, h]

/-- Witness for C10 at the concrete state with `patientId = "  "`. -/
theorem c10_empty_patient_id_is_pure_witness :
    (Frontend.discoverUrls
      { patientId := "  ", urls := ["u"], result := none,
        error := some "old", toastMsg := "" }).requests = [] ∧
    (Frontend.discoverUrls
      { patientId := "  ", urls := ["u"], result := none,
        error := some "old", toastMsg := "" }).state.urls = ["u"] := by
  have h := c10_empty_patient_id_is_pure
    { patientId := "  ", urls := ["u"], result := none,
      error := some "old", toastMsg := "" } (by decide)
  exact ⟨h.1, h.2.2.1⟩

/-- C6 (failing-input evaluation): the `App` component's calls to the two
endpoints are issued by bare `fetch` with no timeout bound — the
`fetchWithTimeout` helper, which would attach its 20000 ms default, is
never used at either call site. -/
theorem c6_client_calls_have_no_timeout :
    (Frontend.discoverUrls
      { patientId := "175050134757165", urls := [], result := none,
        error := none, toastMsg := "" }).requests.map
          (fun r => r.timeoutMs) = [none] ∧
    (Frontend.summarize
      { patientId := "175050134757165", urls := [], result := none,
        error := none, toastMsg := "" }).requests.map
          (fun r => r.timeoutMs) = [none] ∧
    (∀ (req : HttpRequest) (t : Nat),
       (fetchWithTimeout req t).timeoutMs = some t) ∧
    fetchWithTimeoutDefaultMs = 20000 :=
  ⟨by decide, by decide, fun req t => rfl, rfl⟩

end Theorems

section OrchestratorTheorems

open DocumentLinkScanner Summarizer Pipeline Frontend

/-- C2: the core exposes exactly two HTTP operations, both POST with JSON
body `{patient_id}`; the frontend client sends exactly this request shape
to exactly these two paths and no others, and a successful
`/api/prescription-urls` call returns `{patient_id, count, urls}` with
`count` the length of `urls`. -/
theorem c2_two_post_endpoints (s : AppState)
    (h : trimIsEmpty s.patientId = false) :
    Pipeline.endpoints.length = 2 ∧
    (∀ e ∈ Pipeline.endpoints, e.2 = "POST") ∧
    (Frontend.discoverUrls s).requests =
      [plainPost "/api/prescription-urls" s.patientId] ∧
    (Frontend.summarize s).requests =
      [plainPost "/api/patient-summary" s.patientId] ∧
    (∀ r ∈ (Frontend.discoverUrls s).requests ++
           (Frontend.summarize s).requests,
       r.method = "POST" ∧ r.contentType = "application/json" ∧
       r.patient_id = s.patientId ∧ (r.path, "POST") ∈ Pipeline.endpoints) ∧
    (∀ (fp : String → Json) (pid : String),
       (Pipeline.discover fp pid).patient_id = pid ∧
       (Pipeline.discover fp pid).count =
         (Pipeline.discover fp pid).urls.length) := by
  refine ⟨rfl, by decide, ?_, ?_, ?_, fun fp pid => ⟨rfl, rfl⟩⟩
  · simp [Frontend.discoverUrls, h]
  · simp [Frontend.summarize, h]
  · intro r hr
    simp only [Frontend.discoverUrls, Frontend.summarize, h, Bool.false_eq_true,
      if_false, List.mem_append, List.mem_singleton] at hr
    rcases hr with rfl | rfl <;>
      simp [plainPost, Pipeline.endpoints]

/-- Witness for C2 at the concrete state with
`patientId = "175050134757165"`. -/
theorem c2_two_post_endpoints_witness :
    (Frontend.discoverUrls
      { patientId := "175050134757165", urls := [], result := none,
        error := none, toastMsg := "" }).requests =
      [plainPost "/api/prescription-urls" "175050134757165"] ∧
    (Frontend.summarize
      { patientId := "175050134757165", urls := [], result := none,
        error := none, toastMsg := "" }).requests =
      [plainPost "/api/patient-summary" "175050134757165"] := by
  have h := c2_two_post_endpoints
    { patientId := "175050134757165", urls := [], result := none,
      error := none, toastMsg := "" } (by decide)
  exact ⟨h.2.2.1, h.2.2.2.1⟩

/-- C4: whenever the internal discover step yields zero candidate URLs,
or zero fetched documents have usable text, `PipelineOrchestrator.summarize`
returns the distinct no-documents result and the LLM is never invoked
(the invocation count is 0). -/
theorem c4_no_documents_short_circuits
    (fp : String → Json) (fetchAll : List String → List FetchedDocument)
    (strict lenient : String → Option ParsedSummary)
    (llm : String → String) (pid : String) :
    ((Pipeline.discover fp pid).urls = [] →
       Pipeline.orchestrate fp fetchAll strict lenient llm pid =
         (.noDocumentsFound pid, 0)) ∧
    (usableTexts (fetchAll (Pipeline.discover fp pid).urls) = [] →
       (Pipeline.orchestrate fp fetchAll strict lenient llm pid).1.isNoDocs
           = true ∧
       (Pipeline.orchestrate fp fetchAll strict lenient llm pid).2 = 0) := by
  constructor
  · intro h
    simp [Pipeline.orchestrate, h]
  · intro h
    by_cases hu : (Pipeline.discover fp pid).urls = []
    · simp [Pipeline.orchestrate, hu, SummarizeOutcome.isNoDocs]
    · simp [Pipeline.orchestrate, List.isEmpty_iff, hu, h,
        SummarizeOutcome.isNoDocs]

/-- Witness for C4: a platform response with no URLs at all
short-circuits to `noDocumentsFound` with zero LLM invocations. -/
theorem c4_no_documents_short_circuits_witness :
    Pipeline.orchestrate (fun _ => Json.null)
      (fun urls => urls.map (fun u =>
        { source_url := u, extracted_text := none,
          status := .download_failed }))
      (fun _ => none) (fun _ => none) (fun _ => "") "p42" =
      (.noDocumentsFound "p42", 0) :=
  (c4_no_documents_short_circuits (fun _ => Json.null) _ _ _ _ "p42").1
    (by decide)

end OrchestratorTheorems

section SummaryShapeTheorem

open DocumentLinkScanner Summarizer Pipeline

/-- C3: every successful `/api/patient-summary` result carries the
JourneySummary shape plus the bookkeeping fields: `patient_id` echoes the
request, `source_count` is the discover count, `ingested_docs` counts the
usable documents, `mental_state.color` is one of Green/Amber/Red and
`mental_state.confidence` lies in `[0,1]`. -/
theorem c3_patient_summary_shape
    (fp : String → Json) (fetchAll : List String → List FetchedDocument)
    (strict lenient : String → Option ParsedSummary)
    (llm : String → String) (pid : String)
    (resp : SummaryResponse) (k : Nat)
    (h : Pipeline.orchestrate fp fetchAll strict lenient llm pid =
      (.summarized resp, k)) :
    (resp.journey.mental_state.color = Color.Green ∨
     resp.journey.mental_state.color = Color.Amber ∨
     resp.journey.mental_state.color = Color.Red) ∧
    0 ≤ resp.journey.mental_state.confidence ∧
    resp.journey.mental_state.confidence ≤ 1 ∧
    resp.patient_id = pid ∧
    resp.source_count = (Pipeline.discover fp pid).count ∧
    resp.ingested_docs =
      (usableTexts (fetchAll (Pipeline.discover fp pid).urls)).length ∧
    resp.debug = none := by
  unfold Pipeline.orchestrate at h
  by_cases h1 : (Pipeline.discover fp pid).urls.isEmpty
  · simp [h1] at h
  · by_cases h2 :
        (usableTexts (fetchAll (Pipeline.discover fp pid).urls)).isEmpty
    · simp [h1, h2] at h
    · simp only [h1, h2, Bool.false_eq_true, if_false] at h
      obtain ⟨hr, -⟩ := Prod.mk.injEq .. ▸ h
      have hresp := (SummarizeOutcome.summarized.injEq .. ▸ hr : _)
      subst hresp
      refine ⟨?_, (summarize_confidence_mem _ _ _).1,
        (summarize_confidence_mem _ _ _).2, rfl, rfl, ?_, rfl⟩
      · cases (Summarizer.summarize strict lenient
          (llm (aggregateTexts
            (fetchAll (Pipeline.discover fp pid).urls)))).mental_state.color
        · exact Or.inl rfl
        · exact Or.inr (Or.inl rfl)
        · exact Or.inr (Or.inr rfl)
      · simp [List.isEmpty_iff] at h2
        rfl

end SummaryShapeTheorem

section SummaryShapeWitness

open DocumentLinkScanner Summarizer Pipeline

/-- Witness for C3: one `file_url` PDF link, one usable document, decoders
that fail (so the journey is the fallback), LLM output `"out"`. -/
theorem c3_patient_summary_shape_witness :
    0 ≤ (Summarizer.fallbackSummary "out").mental_state.confidence ∧
    (Summarizer.fallbackSummary "out").mental_state.confidence ≤ 1 ∧
    ({ patient_id := "p1", journey := Summarizer.fallbackSummary "out",
       ingested_docs := 1, source_count := 1, debug := none } :
        SummaryResponse).patient_id = "p1" := by
  have h := c3_patient_summary_shape
    (fun _ => Json.obj [("file_url", Json.str "https://x/a.pdf")])
    (fun urls => urls.map (fun u =>
      { source_url := u, extracted_text := some "text", status := .ok }))
    (fun _ => none) (fun _ => none) (fun _ => "out") "p1"
    { patient_id := "p1", journey := Summarizer.fallbackSummary "out",
      ingested_docs := 1, source_count := 1, debug := none } 1
    (by decide)
  exact ⟨h.2.1, h.2.2.1, h.2.2.2.1⟩

end SummaryShapeWitness

section TokenManagerTheorems

open TokenManager

/-- The invariant holds initially. -/
lemma tmInv_init (n : Nat) : TMInv n (TMState.init n) := by
  simp [TMInv, TMState.init]

/-- The invariant is preserved by every protocol step. -/
lemma tmInv_step {n : Nat} {σ σ' : TMState}
    (h : TMStep σ σ') (hi : TMInv n σ) : TMInv n σ' := by
  obtain ⟨hsum, hlog, hcalls, himp, hdone⟩ := hi
  unfold TMInv
  cases h with
  | cacheHit h1 h2 h3 =>
    subst h3
    cases hinf : σ.inflight
    · simp_all; omega
    · simp_all
  | beginLogin h1 h2 h3 h4 =>
    subst h4
    simp_all; omega
  | joinWait h1 h2 h3 h4 =>
    subst h4
    simp_all; omega
  | finishLogin h1 h2 =>
    subst h2
    have hinf : σ.inflight = true := by
      cases hc : σ.inflight
      · rw [hc] at hlog; simp at hlog; omega
      · rfl
    have hcred : σ.hasCred = false := himp hinf
    simp_all
  | wake h1 h2 h3 =>
    subst h3
    cases hinf : σ.inflight
    · simp_all; omega
    · simp_all

/-- The invariant holds in every reachable state. -/
lemma tmInv_reach {n : Nat} {σ : TMState}
    (h : TMReach (TMState.init n) σ) : TMInv n σ := by
  induction h with
  | refl => exact tmInv_init n
  | tail _ hstep ih => exact tmInv_step hstep ih

/-- C8: for every `n`, in every state the single-flight token protocol
can reach from `n` concurrent `get_valid_token()` callers and no cached
Credential, at most one login/refresh network call is in flight; and once
all `n ≥ 1` callers have returned, exactly one login network call was
issued in total. -/
theorem c8_token_manager_single_flight (n : Nat) (σ : TMState)
    (h : TMReach (TMState.init n) σ) :
    σ.nLogin ≤ 1 ∧ (σ.nDone = n → 1 ≤ n → σ.loginCalls = 1) := by
  obtain ⟨hsum, hlog, hcalls, himp, hdone⟩ := tmInv_reach h
  constructor
  · cases hinf : σ.inflight <;> rw [hinf] at hlog <;> simp at hlog <;> omega
  · intro hall hn
    cases hinf : σ.inflight <;> rw [hinf] at hlog hcalls <;>
      simp at hlog hcalls
    · cases hcred : σ.hasCred <;> rw [hcred] at hcalls <;> simp at hcalls
      · rw [hcred] at hdone; simp at hdone; omega
      · exact hcalls
    · omega

end TokenManagerTheorems

section TokenManagerWitness

open TokenManager

/-- Witness for C8: two concurrent callers — one starts the login, the
other joins the waiters, the login finishes, the waiter wakes; exactly
one login call was issued and at most one was ever in flight. -/
theorem c8_token_manager_single_flight_witness :
    ({ hasCred := true, inflight := false, loginCalls := 1, nStart := 0,
       nWaiting := 0, nLogin := 0, nDone := 2 } : TMState).nLogin ≤ 1 ∧
    ({ hasCred := true, inflight := false, loginCalls := 1, nStart := 0,
       nWaiting := 0, nLogin := 0, nDone := 2 } : TMState).loginCalls = 1 := by
  have s1 : TMStep (TMState.init 2)
      { hasCred := false, inflight := true, loginCalls := 1, nStart := 1,
        nWaiting := 0, nLogin := 1, nDone := 0 } :=
    TMStep.beginLogin _ _ (by decide) rfl rfl (by decide)
  have s2 : TMStep
      { hasCred := false, inflight := true, loginCalls := 1, nStart := 1,
        nWaiting := 0, nLogin := 1, nDone := 0 }
      { hasCred := false, inflight := true, loginCalls := 1, nStart := 0,
        nWaiting := 1, nLogin := 1, nDone := 0 } :=
    TMStep.joinWait _ _ (by decide) rfl rfl (by decide)
  have s3 : TMStep
      { hasCred := false, inflight := true, loginCalls := 1, nStart := 0,
        nWaiting := 1, nLogin := 1, nDone := 0 }
      { hasCred := true, inflight := false, loginCalls := 1, nStart := 0,
        nWaiting := 1, nLogin := 0, nDone := 1 } :=
    TMStep.finishLogin _ _ (by decide) (by decide)
  have s4 : TMStep
      { hasCred := true, inflight := false, loginCalls := 1, nStart := 0,
        nWaiting := 1, nLogin := 0, nDone := 1 }
      { hasCred := true, inflight := false, loginCalls := 1, nStart := 0,
        nWaiting := 0, nLogin := 0, nDone := 2 } :=
    TMStep.wake _ _ (by decide) rfl (by decide)
  have hreach : TMReach (TMState.init 2)
      { hasCred := true, inflight := false, loginCalls := 1, nStart := 0,
        nWaiting := 0, nLogin := 0, nDone := 2 } :=
    Relation.ReflTransGen.tail
      (Relation.ReflTransGen.tail
        (Relation.ReflTransGen.tail (Relation.ReflTransGen.single s1) s2)
        s3)
      s4
  have h := c8_token_manager_single_flight 2 _ hreach
  exact ⟨h.1, h.2 rfl (by norm_num)⟩

end TokenManagerWitness

section ScannerTheorems

open DocumentLinkScanner

/-- A deduplication step leaves the URL sequence unchanged on an
already-seen URL and appends a fresh one. -/
lemma urlsOf_dedupStep (acc : List CandidateUrl) (p : String × Confidence) :
    urlsOf (dedupStep acc p) =
      if p.1 ∈ urlsOf acc then urlsOf acc else urlsOf acc ++ [p.1] := by
  unfold dedupStep
  by_cases h : p.1 ∈ urlsOf acc
  · have hany : acc.any (fun c => c.url = p.1) = true := by
      rw [List.any_eq_true]
      obtain ⟨c, hc, hcu⟩ := List.mem_map.1 h
      exact ⟨c, hc, by simp [hcu]⟩
    rw [if_pos (by simp [hany]), if_pos h]
    simp only [urlsOf, List.map_map]
    congr 1
    funext c
    by_cases hc : c.url = p.1 <;> simp [hc]
  · have hany : acc.any (fun c => c.url = p.1) = false := by
      rw [List.any_eq_false]
      intro c hc
      simp only [decide_eq_true_eq]
      intro hcu
      exact h (List.mem_map.2 ⟨c, hc, hcu⟩)
    rw [if_neg (by simp [hany]), if_neg h]
    simp [urlsOf]

/-- Membership in the deduplicated URL sequence is membership in the
accumulator or in the raw emissions. -/
lemma mem_urlsOf_foldl (l : List (String × Confidence)) :
    ∀ (acc : List CandidateUrl) (s : String),
      s ∈ urlsOf (l.foldl dedupStep acc) ↔
        s ∈ urlsOf acc ∨ s ∈ l.map Prod.fst := by
  induction l with
  | nil => intro acc s; simp
  | cons p l ih =>
    intro acc s
    rw [List.foldl_cons, ih, urlsOf_dedupStep]
    by_cases h : p.1 ∈ urlsOf acc
    · rw [if_pos h]
      simp only [List.map_cons, List.mem_cons]
      constructor
      · rintro (hs | hs)
        · exact Or.inl hs
        · exact Or.inr (Or.inr hs)
      · rintro (hs | rfl | hs)
        · exact Or.inl hs
        · exact Or.inl h
        · exact Or.inr hs
    · rw [if_neg h]
      simp only [List.map_cons, List.mem_cons, List.mem_append,
        List.mem_singleton]
      tauto

/-- Deduplication never introduces a duplicate URL. -/
lemma nodup_urlsOf_foldl (l : List (String × Confidence)) :
    ∀ acc : List CandidateUrl, (urlsOf acc).Nodup →
      (urlsOf (l.foldl dedupStep acc)).Nodup := by
  induction l with
  | nil => intro acc h; exact h
  | cons p l ih =>
    intro acc h
    rw [List.foldl_cons]
    apply ih
    rw [urlsOf_dedupStep]
    by_cases hm : p.1 ∈ urlsOf acc
    · rw [if_pos hm]; exact h
    · rw [if_neg hm, List.nodup_append]
      refine ⟨h, List.nodup_singleton _, ?_⟩
      intro a ha hb
      rw [List.mem_singleton] at hb
      subst hb
      exact hm ha

/-- Every `.pdf` string value within the traversal depth is among the raw
emissions (with some confidence tag). -/
lemma pdf_mem_scanRaw (fuel : Nat) :
    ∀ (j : Json) (s : String), endsWithPdf s = true →
      s ∈ strVals fuel j → s ∈ (scanRaw fuel j).map Prod.fst := by
  induction fuel with
  | zero => intro j s _ h; simp [strVals] at h
  | succ fuel ih =>
    intro j s hpdf hmem
    cases j with
    | str t =>
      simp only [strVals, List.mem_singleton] at hmem
      subst hmem
      simp [scanRaw, hpdf]
    | num n => simp [strVals] at hmem
    | bool b => simp [strVals] at hmem
    | null => simp [strVals] at hmem
    | arr xs =>
      simp only [strVals] at hmem
      rw [List.mem_flatMap] at hmem
      obtain ⟨x, hx, hmx⟩ := hmem
      obtain ⟨pc, hpc, hfst⟩ := List.mem_map.1 (ih x s hpdf hmx)
      simp only [scanRaw]
      exact List.mem_map.2 ⟨pc, List.mem_flatMap.2 ⟨x, hx, hpc⟩, hfst⟩
    | obj kvs =>
      simp only [strVals] at hmem
      rw [List.mem_flatMap] at hmem
      obtain ⟨kv, hkv, hmkv⟩ := hmem
      obtain ⟨pc, hpc, hfst⟩ := List.mem_map.1 (ih kv.2 s hpdf hmkv)
      simp only [scanRaw]
      exact List.mem_map.2
        ⟨pc, List.mem_flatMap.2 ⟨kv, hkv, List.mem_append.2 (Or.inr hpc)⟩,
         hfst⟩

/-- C5 (amended): for every JSON input and every string value ending in
`.pdf` (case-insensitive) at any nesting depth within the scanner's
recursion-depth cap, and under any container key,
`DocumentLinkScanner.scan` emits that URL exactly once. -/
theorem c5_pdf_url_emitted_exactly_once (j : Json) (s : String)
    (hpdf : endsWithPdf s = true) (hmem : s ∈ strVals depthCap j) :
    (urlsOf (scan j)).count s = 1 := by
  have hraw := pdf_mem_scanRaw depthCap j s hpdf hmem
  have hm : s ∈ urlsOf (scan j) := by
    unfold scan dedup
    rw [mem_urlsOf_foldl]
    exact Or.inr hraw
  have hnd : (urlsOf (scan j)).Nodup := by
    unfold scan dedup
    exact nodup_urlsOf_foldl _ [] (by simp [urlsOf])
  exact List.count_eq_one_of_mem hnd hm

/-- Witness for C5 (amended) on the §8 scenario input
`{"attachments":[{"file_url":"https://x/a.pdf"},{"note":"see prescription
here"}]}`: the PDF URL appears exactly once in the scan output, in
first-seen order and carrying the higher `explicit_key` tag even though
the `pdf_suffix` rule also matched it. -/
theorem c5_pdf_url_emitted_exactly_once_witness :
    (urlsOf (scan (Json.obj [("attachments", Json.arr
        [Json.obj [("file_url", Json.str "https://x/a.pdf")],
         Json.obj [("note", Json.str "see prescription here")]])]))).count
      "https://x/a.pdf" = 1 ∧
    scan (Json.obj [("attachments", Json.arr
        [Json.obj [("file_url", Json.str "https://x/a.pdf")],
         Json.obj [("note", Json.str "see prescription here")]])]) =
      [{ url := "https://x/a.pdf", confidence_hint := .explicit_key },
       { url := "see prescription here",
         confidence_hint := .keyword_match }] :=
  ⟨c5_pdf_url_emitted_exactly_once _ "https://x/a.pdf" (by decide)
    (by decide), by decide⟩

/-- `n` nested single-key objects around a JSON value. -/
def deepNest : Nat → Json → Json
  | 0, j => j
  | n + 1, j => Json.obj [("k", deepNest n j)]

set_option maxRecDepth 4000 in
/-- Counterexample to C5 as stated: a `.pdf` string value nested 55
containers deep — beyond the scanner's recursion-depth cap of 50 — is a
string value of the input (visible to a depth-60 traversal) yet `scan`
emits nothing for it, so the "at any nesting depth" quantification
fails. -/
theorem c5_depth_cap_counterexample :
    endsWithPdf "https://x/deep.pdf" = true ∧
    "https://x/deep.pdf" ∈
      strVals 60 (deepNest 55 (Json.str "https://x/deep.pdf")) ∧
    (urlsOf (scan (deepNest 55 (Json.str "https://x/deep.pdf")))).count
      "https://x/deep.pdf" = 0 :=
  ⟨by decide, by decide, by decide⟩

end ScannerTheorems
